import Mathlib

/-!
Verification of the landmark-interference probability-field core
(`QuantumSlamCore`) and the frame/render drivers (`QuantumRenderer`).

The Rust source computes with `f32`/`f64` machine floats; this development
models that arithmetic over the real numbers `ℝ` (the idealised semantics the
design document specifies: square roots, exponentials and trigonometric
functions over the reals).  The `f64 -> f32` narrowing cast that
`probability_at` applies to the stored wave number is modelled by an explicit
cast function parameter where a claim is about it, and by the identity
elsewhere.  Mutation of the landmark vector is modelled by state passing:
each mutating method returns the updated structure.
-/

/-- One landmark record: world position, currently perceived distance,
amplitude weight and cosmetic phase term (source struct `Landmark`). -/
structure Landmark where
  position : ℝ × ℝ
  observed_dist : ℝ
  confidence : ℝ
  phase_offset : ℝ

/-- The CPU physics core: ordered landmark store plus the wave number
(source struct `QuantumSlamCore`). -/
structure QuantumSlamCore where
  landmarks : List Landmark
  wave_number : ℝ

/-- `QuantumSlamCore::new`: empty landmark store, given wave number. -/
def QuantumSlamCore.new (wave_number : ℝ) : QuantumSlamCore :=
  { landmarks := [], wave_number := wave_number }

/-- `QuantumSlamCore::add_landmark`: push one landmark with the given
position, `observed_dist = 0.0`, `confidence = 1.0`, `phase_offset = 0.0`. -/
def QuantumSlamCore.add_landmark (c : QuantumSlamCore) (x y : ℝ) : QuantumSlamCore :=
  { c with landmarks := c.landmarks ++
      [{ position := (x, y), observed_dist := 0, confidence := 1, phase_offset := 0 }] }

/-- `QuantumSlamCore::observe`: for each landmark set `observed_dist` to
`sqrt(dx*dx + dy*dy)` where `dx, dy` are the componentwise differences
between the landmark position and the observer position. -/
noncomputable def QuantumSlamCore.observe (c : QuantumSlamCore)
    (true_cam_x true_cam_y : ℝ) : QuantumSlamCore :=
  { c with landmarks := c.landmarks.map fun lm =>
      { lm with observed_dist :=
          Real.sqrt ((lm.position.1 - true_cam_x) * (lm.position.1 - true_cam_x)
            + (lm.position.2 - true_cam_y) * (lm.position.2 - true_cam_y)) } }

/-- `QuantumSlamCore::probability_at`, generalised over the `f64 -> f32`
narrowing cast applied to `self.wave_number` in the source
(`self.wave_number as f32`).  Loop-accumulates `(re_sum, im_sum)` over the
landmark store in order and returns `re_sum * re_sum + im_sum * im_sum`. -/
noncomputable def QuantumSlamCore.probability_at_cast (castF32 : ℝ → ℝ)
    (c : QuantumSlamCore) (x y : ℝ) : ℝ :=
  let s := c.landmarks.foldl (fun acc lm =>
    let dx := x - lm.position.1
    let dy := y - lm.position.2
    let hypo_dist := Real.sqrt (dx * dx + dy * dy)
    let residual := hypo_dist - lm.observed_dist
    let phase := castF32 c.wave_number * residual
    let amp := lm.confidence * Real.exp (-2 * |residual|)
    (acc.1 + amp * Real.cos phase, acc.2 + amp * Real.sin phase)) (0, 0)
  s.1 * s.1 + s.2 * s.2

/-- `QuantumSlamCore::probability_at` with the cast idealised to the
identity (over `ℝ` the narrowing loses nothing). -/
noncomputable def QuantumSlamCore.probability_at (c : QuantumSlamCore) (x y : ℝ) : ℝ :=
  QuantumSlamCore.probability_at_cast id c x y

/-- Per-landmark residual at a query point, exactly as the loop body of
`probability_at` computes it: `sqrt(dx*dx + dy*dy) - observed_dist`. -/
noncomputable def residualAt (lm : Landmark) (x y : ℝ) : ℝ :=
  Real.sqrt ((x - lm.position.1) * (x - lm.position.1)
    + (y - lm.position.2) * (y - lm.position.2)) - lm.observed_dist

/-- Per-landmark amplitude as the loop body of `probability_at` computes it:
`confidence * exp(-2 * |residual|)`. -/
noncomputable def ampAt (lm : Landmark) (x y : ℝ) : ℝ :=
  lm.confidence * Real.exp (-2 * |residualAt lm x y|)

/-- Modelled from the spec (§4.1 Field Model), for comparison with the
source-derived `probability_at`: per-landmark amplitude times
cosine/sine of phase, summed into `re` and `im`, result `re*re + im*im`. -/
noncomputable def probabilityAt_spec (landmarks : List Landmark)
    (waveNumber x y : ℝ) : ℝ :=
  let re := (landmarks.map fun lm =>
    lm.confidence * Real.exp (-2 * |Real.sqrt ((x - lm.position.1) ^ 2
        + (y - lm.position.2) ^ 2) - lm.observed_dist|)
      * Real.cos (waveNumber * (Real.sqrt ((x - lm.position.1) ^ 2
        + (y - lm.position.2) ^ 2) - lm.observed_dist))).sum
  let im := (landmarks.map fun lm =>
    lm.confidence * Real.exp (-2 * |Real.sqrt ((x - lm.position.1) ^ 2
        + (y - lm.position.2) ^ 2) - lm.observed_dist|)
      * Real.sin (waveNumber * (Real.sqrt ((x - lm.position.1) ^ 2
        + (y - lm.position.2) ^ 2) - lm.observed_dist))).sum
  re * re + im * im

/-- The pairwise fold of `probability_at` splits into two list sums. -/
theorem foldl_pair_eq_sum (l : List Landmark) (f g : Landmark → ℝ) (a b : ℝ) :
    l.foldl (fun acc lm => (acc.1 + f lm, acc.2 + g lm)) (a, b)
      = (a + (l.map f).sum, b + (l.map g).sum) := by
  induction l generalizing a b with
  | nil => simp
  | cons hd tl ih => simp [List.foldl_cons, ih, add_assoc]

/-- C4: `probability_at` on a core with an empty landmark store returns 0
for every wave number and every query point. -/
theorem probability_at_empty (w x y : ℝ) :
    (QuantumSlamCore.new w).probability_at x y = 0 := by
  simp [QuantumSlamCore.probability_at, QuantumSlamCore.probability_at_cast,
    QuantumSlamCore.new]

/-- C5: `probability_at` is non-negative for every landmark store, wave
number and query point. -/
theorem probability_at_nonneg (c : QuantumSlamCore) (x y : ℝ) :
    0 ≤ c.probability_at x y := by
  unfold QuantumSlamCore.probability_at QuantumSlamCore.probability_at_cast
  exact add_nonneg (mul_self_nonneg _) (mul_self_nonneg _)

/-- C1: `probability_at` computes exactly the spec's Field Model formula:
per-landmark Euclidean distance, residual, phase = waveNumber * residual,
amplitude = confidence * exp(-2|residual|), accumulated into `re`/`im` in
store order, result `re*re + im*im`.  As a Lean function of the core state
and the query point it is pure, so repeated calls agree by reflexivity. -/
theorem probability_at_eq_spec (c : QuantumSlamCore) (x y : ℝ) :
    c.probability_at x y = probabilityAt_spec c.landmarks c.wave_number x y := by
  unfold QuantumSlamCore.probability_at QuantumSlamCore.probability_at_cast
    probabilityAt_spec
  simp only [id_eq, pow_two]
  rw [foldl_pair_eq_sum]
  simp only [zero_add]

/-- `sqrt((3-0)^2-style sum) = 5`: the 3-4-5 triangle, in the exact shape
`observe` computes. -/
theorem sqrt_three_four_five :
    Real.sqrt ((3 - 0 : ℝ) * (3 - 0) + (4 - 0) * (4 - 0)) = 5 := by
  rw [show ((3 - 0 : ℝ) * (3 - 0) + (4 - 0) * (4 - 0)) = 5 ^ 2 by norm_num,
    Real.sqrt_sq (by norm_num : (0 : ℝ) ≤ 5)]

/-- C2: `observe` keeps the landmark count, sets every landmark's
`observed_dist` to the Euclidean distance from the observer position to
that landmark's position, is a no-op on an empty store, and on a single
landmark at (3,4) with observer (0,0) yields `observed_dist = 5` exactly. -/
theorem observe_sets_true_distance (c : QuantumSlamCore) (cx cy : ℝ) :
    ((c.observe cx cy).landmarks.length = c.landmarks.length)
    ∧ (∀ i : ℕ, ((c.observe cx cy).landmarks[i]?).map Landmark.observed_dist
        = (c.landmarks[i]?).map fun lm =>
            Real.sqrt ((cx - lm.position.1) ^ 2 + (cy - lm.position.2) ^ 2))
    ∧ (∀ w : ℝ, ((QuantumSlamCore.new w).observe cx cy).landmarks = [])
    ∧ (∀ o cf ph w : ℝ,
        (QuantumSlamCore.observe ⟨[⟨(3, 4), o, cf, ph⟩], w⟩ 0 0).landmarks.map
          Landmark.observed_dist = [5]) := by
  refine ⟨by simp [QuantumSlamCore.observe], ?_, ?_, ?_⟩
  · intro i
    simp only [QuantumSlamCore.observe, List.getElem?_map, Option.map_map]
    congr 1
    funext lm
    simp only [Function.comp_apply]
    congr 1
    ring
  · intro w
    simp [QuantumSlamCore.observe, QuantumSlamCore.new]
  · intro o cf ph w
    simp only [QuantumSlamCore.observe, List.map_cons, List.map_nil]
    exact congrArg (fun r => [r]) sqrt_three_four_five

/-- C3: on a core holding exactly one landmark of confidence 1, observing
from the query point itself and then querying `probability_at` there yields
exactly 1 (`residual = 0`, phase 0, amplitude = confidence). -/
theorem observe_then_probability_one (px py qx qy o ph w : ℝ) :
    (QuantumSlamCore.observe ⟨[⟨(px, py), o, 1, ph⟩], w⟩ qx qy).probability_at
      qx qy = 1 := by
  unfold QuantumSlamCore.probability_at QuantumSlamCore.probability_at_cast
    QuantumSlamCore.observe
  simp only [List.map_cons, List.map_nil, List.foldl_cons, List.foldl_nil, id_eq]
  rw [show ((qx - px) * (qx - px) + (qy - py) * (qy - py))
    = ((px - qx) * (px - qx) + (py - qy) * (py - qy)) by ring]
  simp [Real.exp_zero, Real.cos_zero, Real.sin_zero]

/-- `(a cos p)² + (a sin p)² = a²` (the Pythagorean collapse used for a
single landmark). -/
theorem amp_phase_sq (a p : ℝ) :
    a * Real.cos p * (a * Real.cos p) + a * Real.sin p * (a * Real.sin p)
      = a * a := by
  linear_combination (a * a) * Real.sin_sq_add_cos_sq p

/-- On a singleton landmark store, `probability_at` is the square of the
single landmark's amplitude (the wave number drops out). -/
theorem probability_at_single (lm : Landmark) (w x y : ℝ) :
    QuantumSlamCore.probability_at ⟨[lm], w⟩ x y = ampAt lm x y * ampAt lm x y := by
  unfold QuantumSlamCore.probability_at QuantumSlamCore.probability_at_cast
    ampAt residualAt
  simp only [List.foldl_cons, List.foldl_nil, id_eq, zero_add]
  exact amp_phase_sq _ _

/-- `exp(-2r) * exp(-2r) = exp(-4r)`. -/
theorem exp_neg_two_sq (r : ℝ) :
    Real.exp (-2 * r) * Real.exp (-2 * r) = Real.exp (-4 * r) := by
  rw [← Real.exp_add]
  congr 1
  ring

/-- C6: for a single landmark of confidence 1 the probability equals the
envelope `exp(-4|residual|)`, hence is non-increasing as `|residual|`
grows (obtained by moving `observed_dist` away from the true distance);
the amplitude is 1 at residual 0, `exp(-2)` at residual magnitude 1 and
`exp(-4)` at residual magnitude 2. -/
theorem mismatch_decay (px py qx qy o₁ o₂ w : ℝ)
    (h : |residualAt ⟨(px, py), o₁, 1, 0⟩ qx qy|
      ≤ |residualAt ⟨(px, py), o₂, 1, 0⟩ qx qy|) :
    QuantumSlamCore.probability_at ⟨[⟨(px, py), o₂, 1, 0⟩], w⟩ qx qy
      ≤ QuantumSlamCore.probability_at ⟨[⟨(px, py), o₁, 1, 0⟩], w⟩ qx qy
    ∧ QuantumSlamCore.probability_at ⟨[⟨(px, py), o₁, 1, 0⟩], w⟩ qx qy
      = Real.exp (-4 * |residualAt ⟨(px, py), o₁, 1, 0⟩ qx qy|)
    ∧ ampAt ⟨(0, 0), 0, 1, 0⟩ 0 0 = 1
    ∧ ampAt ⟨(0, 0), 1, 1, 0⟩ 0 0 = Real.exp (-2)
    ∧ ampAt ⟨(0, 0), 2, 1, 0⟩ 0 0 = Real.exp (-4) := by
  have closed : ∀ o : ℝ,
      QuantumSlamCore.probability_at ⟨[⟨(px, py), o, 1, 0⟩], w⟩ qx qy
        = Real.exp (-4 * |residualAt ⟨(px, py), o, 1, 0⟩ qx qy|) := by
    intro o
    rw [probability_at_single]
    unfold ampAt
    simp only [one_mul]
    exact exp_neg_two_sq _
  refine ⟨?_, closed o₁, ?_, ?_, ?_⟩
  · rw [closed o₁, closed o₂]
    exact Real.exp_le_exp.mpr (by linarith)
  · norm_num [ampAt, residualAt, Real.sqrt_zero]
  · norm_num [ampAt, residualAt, Real.sqrt_zero]
  · norm_num [ampAt, residualAt, Real.sqrt_zero]

/-- C7: `add_landmark` appends exactly one landmark with position `(x, y)`,
`observed_dist = 0`, `confidence = 1`, `phase_offset = 0`, leaving every
previously stored landmark record untouched; `observe` never changes a
landmark's position, confidence or phase offset. -/
theorem add_landmark_append_observe_preserve
    (c : QuantumSlamCore) (x y cx cy : ℝ) :
    (c.add_landmark x y).landmarks = c.landmarks ++
      [{ position := (x, y), observed_dist := 0, confidence := 1,
         phase_offset := 0 }]
    ∧ (c.observe cx cy).landmarks.map Landmark.position
        = c.landmarks.map Landmark.position
    ∧ (c.observe cx cy).landmarks.map Landmark.confidence
        = c.landmarks.map Landmark.confidence
    ∧ (c.observe cx cy).landmarks.map Landmark.phase_offset
        = c.landmarks.map Landmark.phase_offset := by
  refine ⟨rfl, ?_, ?_, ?_⟩ <;>
    simp [QuantumSlamCore.observe, List.map_map, Function.comp]

/-- C10: `probability_at` reads the stored `f64` wave number only through
the narrowing cast `self.wave_number as f32`: for any cast function and any
two cores with identical landmark stores whose wave numbers agree after the
cast, the result is identical at every query point; `probability_at` itself
is the cast-idealised instance. -/
theorem probability_at_depends_on_cast_only (castF32 : ℝ → ℝ)
    (c₁ c₂ : QuantumSlamCore) (x y : ℝ)
    (hl : c₁.landmarks = c₂.landmarks)
    (hw : castF32 c₁.wave_number = castF32 c₂.wave_number) :
    QuantumSlamCore.probability_at_cast castF32 c₁ x y
      = QuantumSlamCore.probability_at_cast castF32 c₂ x y
    ∧ c₁.probability_at x y = QuantumSlamCore.probability_at_cast id c₁ x y := by
  refine ⟨?_, rfl⟩
  unfold QuantumSlamCore.probability_at_cast
  rw [hl, hw]

/-- Witness for C10 at a concrete input: two cores with wave numbers 1 and
2, a constant cast, identical empty landmark stores. -/
theorem probability_at_depends_on_cast_only_witness :
    ((QuantumSlamCore.new 1).landmarks = (QuantumSlamCore.new 2).landmarks
      ∧ (fun _ : ℝ => (0 : ℝ)) (QuantumSlamCore.new 1).wave_number
        = (fun _ : ℝ => (0 : ℝ)) (QuantumSlamCore.new 2).wave_number)
    ∧ QuantumSlamCore.probability_at_cast (fun _ : ℝ => (0 : ℝ))
        (QuantumSlamCore.new 1) 3 4
      = QuantumSlamCore.probability_at_cast (fun _ : ℝ => (0 : ℝ))
        (QuantumSlamCore.new 2) 3 4 :=
  ⟨⟨rfl, rfl⟩,
    (probability_at_depends_on_cast_only (fun _ : ℝ => (0 : ℝ))
      (QuantumSlamCore.new 1) (QuantumSlamCore.new 2) 3 4 rfl rfl).1⟩

/-- Witness for C6 at a concrete input: landmark at the origin queried at
the origin, observed distances 0 (residual 0) versus 1 (residual magnitude
1): the mismatched store scores no higher. -/
theorem mismatch_decay_witness :
    (|residualAt ⟨((0 : ℝ), 0), 0, 1, 0⟩ 0 0|
      ≤ |residualAt ⟨((0 : ℝ), 0), 1, 1, 0⟩ 0 0|)
    ∧ QuantumSlamCore.probability_at ⟨[⟨((0 : ℝ), 0), 1, 1, 0⟩], 80⟩ 0 0
      ≤ QuantumSlamCore.probability_at ⟨[⟨((0 : ℝ), 0), 0, 1, 0⟩], 80⟩ 0 0 := by
  have h : |residualAt ⟨((0 : ℝ), 0), 0, 1, 0⟩ 0 0|
      ≤ |residualAt ⟨((0 : ℝ), 0), 1, 1, 0⟩ 0 0| := by
    norm_num [residualAt, Real.sqrt_zero]
  exact ⟨h, (mismatch_decay 0 0 0 0 0 1 80 h).1⟩

/-- The per-frame parameter block (source struct `Uniforms`); the `u32`
padding word is carried as a field so the record layout order matches. -/
structure Uniforms where
  resolution : ℝ × ℝ
  time : ℝ
  wave_number : ℝ
  decay_factor : ℝ
  feedback_strength : ℝ
  num_landmarks : ℕ
  pad : ℕ
  camera_pos : ℝ × ℝ

/-- The CPU-visible state of `QuantumRenderer` that `update` touches:
landmark store, camera position and the fixed surface size. -/
structure RendererState where
  landmarks : List Landmark
  camera_pos : ℝ × ℝ
  width : ℕ
  height : ℕ

/-- `QuantumRenderer::update` at elapsed time `t` (the source derives `t`
from the wall clock; here it is the explicit argument): scripted camera
`(sin(t*0.5)*0.5, cos(t*0.3)*0.5)`, per-landmark `observed_dist` recomputed
from the camera and `phase_offset := sin(t*2)*0.5`, and the `Uniforms`
block written to the GPU queue returned alongside the new state. -/
noncomputable def rendererUpdate (r : RendererState) (t : ℝ) :
    RendererState × Uniforms :=
  let camera_pos : ℝ × ℝ := (Real.sin (t * 0.5) * 0.5, Real.cos (t * 0.3) * 0.5)
  let landmarks := r.landmarks.map fun lm =>
    { lm with
      observed_dist :=
        Real.sqrt ((lm.position.1 - camera_pos.1) * (lm.position.1 - camera_pos.1)
          + (lm.position.2 - camera_pos.2) * (lm.position.2 - camera_pos.2)),
      phase_offset := Real.sin (t * 2) * 0.5 }
  let uniforms : Uniforms :=
    { resolution := ((r.width : ℝ), (r.height : ℝ))
      time := t
      wave_number := 80
      decay_factor := 5
      feedback_strength := 0.90
      num_landmarks := landmarks.length
      pad := 0
      camera_pos := camera_pos }
  ({ r with landmarks := landmarks, camera_pos := camera_pos }, uniforms)

/-- C8: each `update` tick sets the camera from the two sinusoids of `t`,
recomputes every landmark's `observed_dist` with exactly the Observation
Updater (`observe`) semantics at that camera, sets every landmark's
`phase_offset` to `sin(2t)*0.5`, and assembles the `Uniforms` block with
the resolution, `t`, the constants 80 / 5 / 0.90, the landmark count and
the camera position. -/
theorem rendererUpdate_spec (r : RendererState) (t : ℝ) :
    (rendererUpdate r t).1.camera_pos
      = (Real.sin (t * 0.5) * 0.5, Real.cos (t * 0.3) * 0.5)
    ∧ (rendererUpdate r t).1.landmarks.map Landmark.observed_dist
      = (QuantumSlamCore.observe ⟨r.landmarks, 0⟩ (Real.sin (t * 0.5) * 0.5)
          (Real.cos (t * 0.3) * 0.5)).landmarks.map Landmark.observed_dist
    ∧ (rendererUpdate r t).1.landmarks.map Landmark.phase_offset
      = r.landmarks.map (fun _ => Real.sin (2 * t) * 0.5)
    ∧ (rendererUpdate r t).2
      = { resolution := ((r.width : ℝ), (r.height : ℝ))
          time := t
          wave_number := 80
          decay_factor := 5
          feedback_strength := 0.90
          num_landmarks := r.landmarks.length
          pad := 0
          camera_pos := (Real.sin (t * 0.5) * 0.5, Real.cos (t * 0.3) * 0.5) } := by
  refine ⟨rfl, ?_, ?_, ?_⟩
  · simp [rendererUpdate, QuantumSlamCore.observe, List.map_map, Function.comp]
  · rw [show (2 : ℝ) * t = t * 2 from mul_comm 2 t]
    simp only [rendererUpdate, List.map_map]
    congr 1
  · simp [rendererUpdate, List.length_map]

/-- Outcome of `Surface::get_current_texture` as `QuantumRenderer` matches
on it: success, `SurfaceError::Lost` (triggers reconfigure), or any other
error (presentation skipped without reconfiguring). -/
inductive SurfaceStatus where
  | ok
  | lost
  | otherErr
deriving DecidableEq

/-- The ping-pong state `QuantumRenderer::render` manipulates: the two
field textures (contents abstracted to a type `α`), the frame counter,
what was copied to the surface on the last call (if any) and whether the
last call reconfigured the surface. -/
structure RenderState (α : Type) where
  texture_a : α
  texture_b : α
  frame_count : ℕ
  presented : Option α
  reconfigured : Bool

/-- `QuantumRenderer::render`, with the compute dispatch abstracted as an
opaque `kernel` mapping the input texture's contents to the output
texture's contents, and the surface-acquisition outcome an explicit
argument.  Even `frame_count`: read A, write B, copy B to the surface; odd:
roles reversed.  The compute pass is encoded before the acquisition check,
so the write lands in the ping-pong buffer on every path, presentation
happens only on success, `SurfaceError::Lost` reconfigures the surface,
and `frame_count` is incremented exactly once on every path. -/
def rendererRender {α : Type} (kernel : α → α) (surface : SurfaceStatus)
    (s : RenderState α) : RenderState α :=
  let newField := if s.frame_count % 2 = 0 then kernel s.texture_a else kernel s.texture_b
  let s' := if s.frame_count % 2 = 0 then { s with texture_b := newField } else { s with texture_a := newField }
  match surface with
  | SurfaceStatus.ok => { s' with presented := some newField, reconfigured := false, frame_count := s.frame_count + 1 }
  | SurfaceStatus.lost => { s' with presented := none, reconfigured := true, frame_count := s.frame_count + 1 }
  | SurfaceStatus.otherErr => { s' with presented := none, reconfigured := false, frame_count := s.frame_count + 1 }

/-- C9: on every `render` call the frame counter advances by exactly one
(on the success path and on both failure paths), parity selects the
ping-pong roles (even: A read, B written and presented; odd: reversed),
the freshly written texture is what gets presented on success, failed
acquisition skips presentation, only `SurfaceError::Lost` reconfigures,
and the compute write still lands when acquisition fails, with the output
buffer's parity flipping every tick with no skips. -/
theorem rendererRender_spec {α : Type} (kernel : α → α)
    (surface : SurfaceStatus) (s : RenderState α) :
    (rendererRender kernel surface s).frame_count = s.frame_count + 1
    ∧ (s.frame_count % 2 = 0 →
        (rendererRender kernel surface s).texture_b = kernel s.texture_a
        ∧ (rendererRender kernel surface s).texture_a = s.texture_a
        ∧ (surface = SurfaceStatus.ok →
          (rendererRender kernel surface s).presented = some (kernel s.texture_a)))
    ∧ (s.frame_count % 2 = 1 →
        (rendererRender kernel surface s).texture_a = kernel s.texture_b
        ∧ (rendererRender kernel surface s).texture_b = s.texture_b
        ∧ (surface = SurfaceStatus.ok →
          (rendererRender kernel surface s).presented = some (kernel s.texture_b)))
    ∧ (surface ≠ SurfaceStatus.ok →
        (rendererRender kernel surface s).presented = none)
    ∧ ((rendererRender kernel surface s).reconfigured = true ↔
        surface = SurfaceStatus.lost)
    ∧ (rendererRender kernel surface s).frame_count % 2 ≠ s.frame_count % 2 := by
  cases surface with
  | ok =>
      refine ⟨by simp [rendererRender], ?_, ?_,
        fun hne => absurd rfl hne, by simp [rendererRender],
        by simp [rendererRender]; omega⟩
      · intro h
        exact ⟨by simp [rendererRender, h], by simp [rendererRender, h],
          fun _ => by simp [rendererRender, h]⟩
      · intro h
        have h0 : ¬ s.frame_count % 2 = 0 := by omega
        exact ⟨by simp [rendererRender, h0], by simp [rendererRender, h0],
          fun _ => by simp [rendererRender, h0]⟩
  | lost =>
      refine ⟨by simp [rendererRender], ?_, ?_,
        fun _ => by simp [rendererRender], by simp [rendererRender],
        by simp [rendererRender]; omega⟩
      · intro h
        exact ⟨by simp [rendererRender, h], by simp [rendererRender, h],
          fun hok => by cases hok⟩
      · intro h
        have h0 : ¬ s.frame_count % 2 = 0 := by omega
        exact ⟨by simp [rendererRender, h0], by simp [rendererRender, h0],
          fun hok => by cases hok⟩
  | otherErr =>
      refine ⟨by simp [rendererRender], ?_, ?_,
        fun _ => by simp [rendererRender], by simp [rendererRender],
        by simp [rendererRender]; omega⟩
      · intro h
        exact ⟨by simp [rendererRender, h], by simp [rendererRender, h],
          fun hok => by cases hok⟩
      · intro h
        have h0 : ¬ s.frame_count % 2 = 0 := by omega
        exact ⟨by simp [rendererRender, h0], by simp [rendererRender, h0],
          fun hok => by cases hok⟩

/-- Witness for C9 at a concrete input: textures 10/20 over `ℕ`, frame
count 0, successful acquisition, kernel `Nat.succ`: the counter advances to
1, texture B receives `succ 10 = 11`, texture A is untouched and the new
texture B contents are presented. -/
theorem rendererRender_spec_witness :
    ((0 : ℕ) % 2 = 0 ∧ SurfaceStatus.ok = SurfaceStatus.ok)
    ∧ (rendererRender Nat.succ SurfaceStatus.ok
        ⟨10, 20, 0, none, false⟩).frame_count = 0 + 1
    ∧ (rendererRender Nat.succ SurfaceStatus.ok
        ⟨10, 20, 0, none, false⟩).texture_b = Nat.succ 10
    ∧ (rendererRender Nat.succ SurfaceStatus.ok
        ⟨10, 20, 0, none, false⟩).texture_a = 10
    ∧ (rendererRender Nat.succ SurfaceStatus.ok
        ⟨10, 20, 0, none, false⟩).presented = some (Nat.succ 10) := by
  have h := rendererRender_spec Nat.succ SurfaceStatus.ok
    (⟨10, 20, 0, none, false⟩ : RenderState ℕ)
  have he := h.2.1 (by decide)
  exact ⟨⟨by decide, rfl⟩, h.1, he.1, he.2.1, he.2.2 rfl⟩
